import Mathlib

/-!
# Product query engine of the mock API server

A shallow embedding of the `GET /api/products` route handler of the
consolidated server (`src/server.js`, lines 105–162) and of the legacy
variant of the same handler (`src/unnamed/part_000`, lines 49–102),
together with proofs about filtering, search, sorting, mutation of the
backing store, and the startup/loader boundary.

Conventions of the embedding:
* JS strings are Lean `String`s; `toLowerCase` is `String.toLower` and
  `localeCompare` is the three-way comparison in code-point order.
* JS numbers that the handler only subtracts and compares (`price`,
  `originalPrice`, `rating`, and the parsed `createdAt` timestamp) are `Int`.
* A record field that may be absent in `db.json` (`description`, `tags`)
  is an `Option`; reading a property of `undefined` throws, which the
  embedding models with `Except String`.
* ES2019 `Array.prototype.sort` is a stable comparator sort, modelled by
  `List.mergeSort` on the relation `comparator a b ≤ 0`.
-/

namespace FakeApi

/-- A product record of the `products` collection in `db.json`.
`description` and `tags` may be absent in a record; every other field is
present in all records (the loader contract).  `createdAt` holds the
timestamp that `new Date(record.createdAt).getTime()` yields for the
record's ISO-8601 string. -/
structure Product where
  id : Nat
  categoryId : String
  name : String
  description : Option String
  tags : Option (List String)
  price : Int
  originalPrice : Int
  inStock : Bool
  rating : Int
  createdAt : Int
deriving DecidableEq, Repr

/-- The raw query parameters of one `GET /api/products` request, before the
handler applies its defaults: `none` is an absent parameter, `some ""` is a
parameter present with an empty value (`?category=`). -/
structure QuerySpec where
  category : Option String
  sort : Option String
  filter : Option String
  search : Option String
deriving DecidableEq, Repr

/-- The request with no query parameters at all. -/
def QuerySpec.empty : QuerySpec := ⟨none, none, none, none⟩

/-- JS truthiness of an optional string parameter (`if (search) { ... }`):
`undefined` and the empty string are falsy, every other string is truthy. -/
def strTruthy : Option String → Bool
  | none => false
  | some s => s != ""

/-- The handler's parameter defaulting `req.query.sort || 'name'`: the JS
`||` falls back on the default when the parameter is absent or empty. -/
def jsOrDefault (x : Option String) (d : String) : String :=
  match x with
  | none => d
  | some s => if s = "" then d else s

/-- `String.prototype.toLowerCase`, restricted to the ASCII case mapping:
each character is lowercased independently. -/
def jsToLower (s : String) : String :=
  ⟨s.data.map Char.toLower⟩

/-- Does `hay` contain `needle` as a contiguous subsequence?  Helper for
`jsIncludes`. -/
def charsContain : List Char → List Char → Bool
  | [], needle => needle.isEmpty
  | h :: t, needle => needle.isPrefixOf (h :: t) || charsContain t needle

/-- `hay.includes(needle)` from JS: substring containment, true on the empty
needle. -/
def jsIncludes (hay needle : String) : Bool :=
  charsContain hay.data needle.data

/-- Strict lexicographic comparison of character sequences in code-point
order: the proper-prefix case and the first-differing-character case. -/
def charsLt : List Char → List Char → Bool
  | [], [] => false
  | [], _ :: _ => true
  | _ :: _, [] => false
  | a :: as, b :: bs => if a < b then true else if b < a then false else charsLt as bs

/-- `a.localeCompare(b)` modelled as the three-way comparison in code-point
order: negative when `a` sorts before `b`, zero on equal strings. -/
def localeCompare (a b : String) : Int :=
  if charsLt a.data b.data then -1 else if charsLt b.data a.data then 1 else 0

/-- The comparator the handler passes to `products.sort` (`src/server.js`
lines 141–155), selected by the defaulted `sort` parameter; every string
other than the four special keys takes the `'name'`/`default` branch. -/
def productCompare (k : String) (a b : Product) : Int :=
  if k = "price-low" then a.price - b.price
  else if k = "price-high" then b.price - a.price
  else if k = "rating" then b.rating - a.rating
  else if k = "newest" then b.createdAt - a.createdAt
  else localeCompare a.name b.name

/-- The `a` sorts-no-later-than `b` relation of `productCompare`, as the
Boolean relation a stable comparator sort consumes. -/
def sortLe (k : String) (a b : Product) : Bool :=
  decide (productCompare k a b ≤ 0)

/-- The in-place `products.sort(comparator)` call: ES2019 requires a stable
sort, modelled by the stable `List.mergeSort`. -/
def engineSort (k : String) (ps : List Product) : List Product :=
  ps.mergeSort (sortLe k)

/-- The category filter stage (`src/server.js` lines 119–121): it fires only
when the raw `category` parameter is truthy (present and non-empty) and is
not the sentinel `'all'`, and then keeps exactly the products whose
`categoryId` strictly equals the parameter. -/
def categoryFilter (category : Option String) (ps : List Product) : List Product :=
  match category with
  | none => ps
  | some c => if c ≠ "" ∧ c ≠ "all" then ps.filter (fun p => p.categoryId == c) else ps

/-- The availability filter stage (`src/server.js` lines 124–128), keyed on
the already-defaulted `filter` parameter: `'in-stock'` keeps in-stock
products, `'on-sale'` keeps discounted ones, anything else keeps all. -/
def availabilityFilter (filterBy : String) (ps : List Product) : List Product :=
  if filterBy = "in-stock" then ps.filter (fun p => p.inStock)
  else if filterBy = "on-sale" then ps.filter (fun p => decide (p.price < p.originalPrice))
  else ps

/-- One evaluation of the consolidated handler's search predicate
(`src/server.js` lines 133–137) on a single product.  JS evaluates the
disjunction left to right: the `name` clause first; only when the name does
not match is `product.description.toLowerCase()` evaluated, which throws a
`TypeError` when `description` is absent; the `tags` clause is guarded by
`product.tags &&`, so absent `tags` yields `false` without an error. -/
def searchTest (searchLower : String) (p : Product) : Except String Bool :=
  if jsIncludes (jsToLower p.name) searchLower then .ok true
  else
    match p.description with
    | none => .error "TypeError: Cannot read properties of undefined"
    | some d =>
      if jsIncludes (jsToLower d) searchLower then .ok true
      else .ok (match p.tags with
        | none => false
        | some ts => ts.any (fun t => jsIncludes (jsToLower t) searchLower))

/-- `Array.prototype.filter` with a predicate that may throw: elements are
tested left to right and the first thrown error aborts the whole call. -/
def filterExcept (f : Product → Except String Bool) : List Product → Except String (List Product)
  | [] => .ok []
  | x :: xs =>
    match f x with
    | .error e => .error e
    | .ok b =>
      match filterExcept f xs with
      | .error e => .error e
      | .ok rest => .ok (if b then x :: rest else rest)

/-- The search filter stage (`src/server.js` lines 131–138), including the
truthiness test on the raw parameter and the lowercasing of the term. -/
def searchFilter (search : Option String) (ps : List Product) : Except String (List Product) :=
  match search with
  | none => .ok ps
  | some s => if s = "" then .ok ps else filterExcept (searchTest (jsToLower s)) ps

/-- The body of the consolidated `GET /api/products` handler
(`src/server.js` lines 107–157) applied to the product collection:
parameter defaulting, category filter, availability filter, search filter,
stable sort.  An `.error` models a thrown exception, which the handler's
`try/catch` surfaces as an HTTP 500 response. -/
def queryEngine (ps : List Product) (q : QuerySpec) : Except String (List Product) :=
  match searchFilter q.search
      (availabilityFilter (jsOrDefault q.filter "all") (categoryFilter q.category ps)) with
  | .error e => .error e
  | .ok l => .ok (engineSort (jsOrDefault q.sort "name") l)

/-- The spec's search predicate over one product: the lowercased term is a
substring of the lowercased `name`, of the lowercased `description`
(defaulting to the empty string when absent), or of some lowercased entry of
`tags` (defaulting to the empty sequence when absent). -/
def searchSpecMatch (searchLower : String) (p : Product) : Bool :=
  jsIncludes (jsToLower p.name) searchLower ||
  jsIncludes (jsToLower (p.description.getD "")) searchLower ||
  (p.tags.getD []).any (fun t => jsIncludes (jsToLower t) searchLower)

/-- The search stage with the spec's defaults substituted for the optional
record fields: a total `filter` over `searchSpecMatch`. -/
def searchTotalFilter (search : Option String) (ps : List Product) : List Product :=
  match search with
  | none => ps
  | some s => if s = "" then ps else ps.filter (searchSpecMatch (jsToLower s))

/-- The engine with the spec's defaults substituted for the optional record
fields: the same pipeline, with the search stage total. -/
def queryEngineTotal (ps : List Product) (q : QuerySpec) : List Product :=
  engineSort (jsOrDefault q.sort "name")
    (searchTotalFilter q.search
      (availabilityFilter (jsOrDefault q.filter "all") (categoryFilter q.category ps)))

/-- The ordering the comparator of `productCompare k` induces, as a
proposition: the relation the output of the sort stage is sorted by. -/
def keyRel (k : String) (a b : Product) : Prop :=
  if k = "price-low" then a.price ≤ b.price
  else if k = "price-high" then b.price ≤ a.price
  else if k = "rating" then b.rating ≤ a.rating
  else if k = "newest" then b.createdAt ≤ a.createdAt
  else localeCompare a.name b.name ≤ 0

/-- The search predicate of the legacy handler (`src/unnamed/part_000`
lines 77–81): the same disjunction as `searchTest` but with NO
`product.tags &&` guard, so a product with absent `tags` whose name and
description do not match throws a `TypeError`. -/
def legacySearchTest (searchLower : String) (p : Product) : Except String Bool :=
  if jsIncludes (jsToLower p.name) searchLower then .ok true
  else
    match p.description with
    | none => .error "TypeError: Cannot read properties of undefined"
    | some d =>
      if jsIncludes (jsToLower d) searchLower then .ok true
      else
        match p.tags with
        | none => .error "TypeError: Cannot read properties of undefined"
        | some ts => .ok (ts.any (fun t => jsIncludes (jsToLower t) searchLower))

/-- The legacy search filter stage (`src/unnamed/part_000` lines 75–82). -/
def legacySearchFilter (search : Option String) (ps : List Product) :
    Except String (List Product) :=
  match search with
  | none => .ok ps
  | some s => if s = "" then .ok ps else filterExcept (legacySearchTest (jsToLower s)) ps

/-- The legacy `GET /api/products` handler (`src/unnamed/part_000` lines
49–102).  There `products` is initialized as `db.get('products').value()`,
which yields the underlying store array itself, not a copy; every filter
stage that fires rebinds `products` to a fresh array produced by `.filter`,
and the final in-place `products.sort` mutates whatever array `products`
still refers to.  The result pairs the store as it is after the request
with the response body: the store comes out reordered exactly when no
filter stage fired. -/
def legacyHandler (store : List Product) (q : QuerySpec) :
    Except String (List Product × List Product) :=
  let sortKey := jsOrDefault q.sort "name"
  let filterBy := jsOrDefault q.filter "all"
  let catFires := strTruthy q.category && (q.category.getD "") != "all"
  let availFires := filterBy == "in-stock" || filterBy == "on-sale"
  let searchFires := strTruthy q.search
  let aliased := !(catFires || availFires || searchFires)
  let l2 := availabilityFilter filterBy (categoryFilter q.category store)
  match legacySearchFilter q.search l2 with
  | .error e => .error e
  | .ok l3 =>
    let sorted := engineSort sortKey l3
    .ok (if aliased then sorted else store, sorted)

/-- The database object as the products route consults it: only the
`products` member matters here, and `none` models an object that has no
`products` member at all. -/
structure Db where
  products : Option (List Product)
deriving DecidableEq, Repr

/-- The fallback object the `catch` branch of the startup loader installs
(`src/server.js` lines 14–24): every collection present and empty. -/
def fallbackDb : Db := ⟨some []⟩

/-- The startup loader (`src/server.js` lines 10–24): `db.json` is read and
parsed inside a `try`, and on any failure the `catch` branch substitutes
`fallbackDb`, so `db` is always set after startup. -/
def loadDb (loaded : Except String Db) : Db :=
  match loaded with
  | .ok d => d
  | .error _ => fallbackDb

/-- An HTTP response of the products endpoint: a 200 JSON array or a 500
error body. -/
inductive ProductsResponse where
  | okJson (body : List Product)
  | serverError (msg : String)
deriving DecidableEq, Repr

/-- The full `GET /api/products` route (`src/server.js` lines 105–162):
the 500 `'Database not loaded'` guard fires only when the database object
lacks its `products` member; otherwise the engine runs, and a thrown
`TypeError` is caught by the route's `try/catch` and answered as a 500. -/
def handleProducts (db : Db) (q : QuerySpec) : ProductsResponse :=
  match db.products with
  | none => .serverError "Database not loaded"
  | some ps =>
    match queryEngine ps q with
    | .ok r => .okJson r
    | .error e => .serverError e

/-- Sample record: full optional fields, not on sale, in stock. -/
def prodZeta : Product :=
  ⟨1, "a", "Zeta", some "big widget", some ["tools"], 50, 50, true, 3, 100⟩

/-- Sample record: no `tags`, discounted, out of stock. -/
def prodAlpha : Product :=
  ⟨2, "a", "Alpha", some "small gadget", none, 20, 40, false, 4, 200⟩

/-- Sample record with the `description` field absent. -/
def prodGhost : Product :=
  ⟨3, "b", "Ghost", none, none, 10, 10, true, 1, 50⟩

/-- Sample record sharing its `rating` with `prodZeta`. -/
def prodBeta : Product :=
  ⟨4, "c", "Beta", some "spare", none, 99, 99, false, 3, 7⟩

/-! ## Order lemmas for the lexicographic comparison -/

theorem charsLt_irrefl : ∀ l : List Char, charsLt l l = false
  | [] => rfl
  | a :: as => by simp [charsLt, lt_irrefl a, charsLt_irrefl as]

theorem charsLt_trans : ∀ {l₁ l₂ l₃ : List Char}, charsLt l₁ l₂ = true →
    charsLt l₂ l₃ = true → charsLt l₁ l₃ = true
  | [], [], _, h₁, _ => by simp [charsLt] at h₁
  | [], _ :: _, [], _, h₂ => by simp [charsLt] at h₂
  | [], _ :: _, _ :: _, _, _ => rfl
  | _ :: _, [], _, h₁, _ => by simp [charsLt] at h₁
  | _ :: _, _ :: _, [], _, h₂ => by simp [charsLt] at h₂
  | a :: as, b :: bs, c :: cs, h₁, h₂ => by
    simp only [charsLt] at h₁ h₂ ⊢
    rcases lt_trichotomy a b with hab | hab | hab
    · rcases lt_trichotomy b c with hbc | hbc | hbc
      · simp [lt_trans hab hbc]
      · subst hbc; simp [hab]
      · rw [if_neg (lt_asymm hbc), if_pos hbc] at h₂
        exact absurd h₂ (by simp)
    · subst hab
      rw [if_neg (lt_irrefl a), if_neg (lt_irrefl a)] at h₁
      split_ifs with hac hca
      · rfl
      · rw [if_neg hac, if_pos hca] at h₂
        exact absurd h₂ (by simp)
      · rw [if_neg hac, if_neg hca] at h₂
        exact charsLt_trans h₁ h₂
    · rw [if_neg (lt_asymm hab), if_pos hab] at h₁
      exact absurd h₁ (by simp)

theorem charsLt_asymm {l₁ l₂ : List Char} (h : charsLt l₁ l₂ = true) :
    charsLt l₂ l₁ = false := by
  by_contra h'
  have h'' : charsLt l₂ l₁ = true := by
    cases hb : charsLt l₂ l₁
    · exact absurd hb h'
    · rfl
  have := charsLt_trans h h''
  rw [charsLt_irrefl] at this
  exact absurd this (by simp)

theorem charsLt_eq_of_not : ∀ {l₁ l₂ : List Char}, charsLt l₁ l₂ = false →
    charsLt l₂ l₁ = false → l₁ = l₂
  | [], [], _, _ => rfl
  | [], _ :: _, h₁, _ => by simp [charsLt] at h₁
  | _ :: _, [], _, h₂ => by simp [charsLt] at h₂
  | a :: as, b :: bs, h₁, h₂ => by
    simp only [charsLt] at h₁ h₂
    rcases lt_trichotomy a b with hab | hab | hab
    · rw [if_pos hab] at h₁; exact absurd h₁ (by simp)
    · subst hab
      rw [if_neg (lt_irrefl a), if_neg (lt_irrefl a)] at h₁ h₂
      rw [charsLt_eq_of_not h₁ h₂]
    · rw [if_pos hab] at h₂; exact absurd h₂ (by simp)

theorem localeCompare_nonpos {a b : String} :
    localeCompare a b ≤ 0 ↔ charsLt b.data a.data = false := by
  unfold localeCompare
  split_ifs with h₁ h₂
  · simp [charsLt_asymm h₁]
  · simp [h₂]
  · simp only [le_refl, true_iff]
    cases hb : charsLt b.data a.data
    · rfl
    · exact absurd hb h₂

theorem localeCompare_nonpos_trans {a b c : String}
    (h₁ : localeCompare a b ≤ 0) (h₂ : localeCompare b c ≤ 0) :
    localeCompare a c ≤ 0 := by
  rw [localeCompare_nonpos] at h₁ h₂ ⊢
  cases hca : charsLt c.data a.data
  · rfl
  · cases hab : charsLt a.data b.data
    · rw [charsLt_eq_of_not hab h₁] at hca
      rw [hca] at h₂
      exact absurd h₂ (by simp)
    · have := charsLt_trans hca hab
      rw [this] at h₂
      exact absurd h₂ (by simp)

theorem localeCompare_nonpos_total (a b : String) :
    localeCompare a b ≤ 0 ∨ localeCompare b a ≤ 0 := by
  rw [localeCompare_nonpos, localeCompare_nonpos]
  cases hab : charsLt a.data b.data
  · right; rfl
  · left; exact charsLt_asymm hab

/-! ## The comparator induces a total preorder, and the sort respects it -/

theorem sortLe_iff (k : String) (a b : Product) :
    sortLe k a b = true ↔ keyRel k a b := by
  unfold sortLe productCompare keyRel
  split_ifs <;> simp [sub_nonpos]

theorem keyRel_trans (k : String) {a b c : Product}
    (h₁ : keyRel k a b) (h₂ : keyRel k b c) : keyRel k a c := by
  unfold keyRel at h₁ h₂ ⊢
  split_ifs at h₁ h₂ ⊢
  · omega
  · omega
  · omega
  · omega
  · exact localeCompare_nonpos_trans h₁ h₂

theorem keyRel_total (k : String) (a b : Product) :
    keyRel k a b ∨ keyRel k b a := by
  unfold keyRel
  split_ifs
  · omega
  · omega
  · omega
  · omega
  · exact localeCompare_nonpos_total a.name b.name

theorem sortLe_trans (k : String) :
    ∀ (a b c : Product), sortLe k a b → sortLe k b c → sortLe k a c := by
  intro a b c h₁ h₂
  exact (sortLe_iff k a c).mpr
    (keyRel_trans k ((sortLe_iff k a b).mp h₁) ((sortLe_iff k b c).mp h₂))

theorem sortLe_total (k : String) :
    ∀ (a b : Product), sortLe k a b || sortLe k b a := by
  intro a b
  rcases keyRel_total k a b with h | h
  · simp [(sortLe_iff k a b).mpr h]
  · simp [(sortLe_iff k b a).mpr h]

theorem engineSort_perm (k : String) (l : List Product) :
    (engineSort k l).Perm l :=
  List.mergeSort_perm l (sortLe k)

theorem engineSort_pairwise (k : String) (l : List Product) :
    (engineSort k l).Pairwise (keyRel k) :=
  (List.sorted_mergeSort (sortLe_trans k) (sortLe_total k) l).imp
    (fun h => (sortLe_iff k _ _).mp h)

/-! ## Pipeline lemmas -/

theorem categoryFilter_sublist (c : Option String) (ps : List Product) :
    List.Sublist (categoryFilter c ps) ps := by
  cases c with
  | none => exact List.Sublist.refl ps
  | some c =>
    simp only [categoryFilter]
    split_ifs
    · exact List.filter_sublist ps
    · exact List.Sublist.refl ps

theorem availabilityFilter_sublist (f : String) (ps : List Product) :
    List.Sublist (availabilityFilter f ps) ps := by
  unfold availabilityFilter
  split_ifs
  · exact List.filter_sublist ps
  · exact List.filter_sublist ps
  · exact List.Sublist.refl ps

theorem searchTest_ok {p : Product} (hdesc : p.description.isSome)
    (s : String) : searchTest s p = .ok (searchSpecMatch s p) := by
  rcases hd : p.description with _ | d
  · rw [hd] at hdesc; simp at hdesc
  · unfold searchTest searchSpecMatch
    rw [hd]
    rcases ht : p.tags with _ | ts <;>
      cases hn : jsIncludes (jsToLower p.name) s <;>
        cases hdm : jsIncludes (jsToLower d) s <;>
          simp [hn, hdm]

theorem filterExcept_ok {f : Product → Except String Bool} {g : Product → Bool} :
    ∀ {l : List Product}, (∀ x ∈ l, f x = .ok (g x)) →
      filterExcept f l = .ok (l.filter g)
  | [], _ => rfl
  | x :: xs, h => by
    have hx := h x (List.mem_cons_self x xs)
    have hrest := filterExcept_ok (fun y hy => h y (List.mem_cons_of_mem x hy))
    unfold filterExcept
    rw [hx, hrest]
    cases hg : g x <;> simp [List.filter, hg]

theorem filterExcept_sublist {f : Product → Except String Bool} :
    ∀ {l r : List Product}, filterExcept f l = .ok r → List.Sublist r l
  | [], r, h => by
    unfold filterExcept at h
    cases h
    exact List.Sublist.refl _
  | x :: xs, r, h => by
    unfold filterExcept at h
    rcases hfx : f x with e | b <;> rw [hfx] at h
    · cases h
    · rcases hrec : filterExcept f xs with e | rest <;> rw [hrec] at h
      · cases h
      · cases h
        have ih := filterExcept_sublist hrec
        cases b
        · simpa using ih.cons x
        · simpa using ih.cons₂ x

theorem searchFilter_sublist {s : Option String} {l r : List Product}
    (h : searchFilter s l = .ok r) : List.Sublist r l := by
  cases s with
  | none => cases h; exact List.Sublist.refl _
  | some s =>
    simp only [searchFilter] at h
    split_ifs at h
    · cases h; exact List.Sublist.refl _
    · exact filterExcept_sublist h

theorem queryEngine_sort_only (ps : List Product) (so : Option String) :
    queryEngine ps ⟨none, so, none, none⟩ =
      .ok (engineSort (jsOrDefault so "name") ps) := rfl

theorem engineSort_nil (k : String) : engineSort k [] = [] := by
  simp [engineSort]

theorem categoryFilter_nil (c : Option String) : categoryFilter c [] = [] := by
  cases c <;> simp [categoryFilter]

theorem availabilityFilter_nil (f : String) : availabilityFilter f [] = [] := by
  simp [availabilityFilter]

theorem searchFilter_nil (s : Option String) : searchFilter s [] = .ok [] := by
  cases s <;> simp [searchFilter, filterExcept]

theorem queryEngine_nil (q : QuerySpec) : queryEngine [] q = .ok [] := by
  simp [queryEngine, categoryFilter_nil, availabilityFilter_nil, searchFilter_nil,
    engineSort_nil]

/-! ## Claims -/

/-- C1, counterexample.  The engine is not total over well-typed inputs with
an absent `description`: a search whose term does not match the product
name evaluates `product.description.toLowerCase()` on `undefined` and
throws, so the request is answered as a 500 instead of with a result
sequence. -/
theorem c1_missing_description_throws :
    queryEngine [prodGhost] ⟨none, none, none, some "zzz"⟩ =
      .error "TypeError: Cannot read properties of undefined" := rfl

/-- C1, amended.  When every record carries a `description`, the engine is
total and equals the pipeline that applies the spec defaults, which in
particular treats a missing `tags` as the empty sequence for search
matching; the empty-string default for `description` is never exercised by
the code, which instead throws on a record missing `description` once the
search reaches it. -/
theorem c1_engine_total_with_descriptions (ps : List Product) (q : QuerySpec)
    (hdesc : ∀ p ∈ ps, p.description.isSome) :
    queryEngine ps q = .ok (queryEngineTotal ps q) := by
  unfold queryEngine queryEngineTotal
  have hmem : ∀ x ∈ availabilityFilter (jsOrDefault q.filter "all")
      (categoryFilter q.category ps), x ∈ ps :=
    fun x hx =>
      ((availabilityFilter_sublist _ _).trans (categoryFilter_sublist _ _)).subset hx
  cases hq : q.search with
  | none => rfl
  | some s =>
    simp only [searchFilter, searchTotalFilter]
    split_ifs with hs
    · rfl
    · rw [filterExcept_ok (fun x hx => searchTest_ok (hdesc x (hmem x hx)) _)]

/-- C1, witness for the amended theorem at a two-record collection with a
searched term. -/
theorem c1_engine_total_witness :
    queryEngine [prodZeta, prodAlpha] ⟨none, none, none, some "gadget"⟩ =
      .ok (queryEngineTotal [prodZeta, prodAlpha] ⟨none, none, none, some "gadget"⟩) :=
  c1_engine_total_with_descriptions [prodZeta, prodAlpha]
    ⟨none, none, none, some "gadget"⟩ (by decide)

/-- C2.  The legacy handler violates the no-mutation invariant: on a store
that is not already name-sorted and a request with no query parameters, no
filter stage fires, `products` still aliases the store array, and the
in-place sort reorders the store itself — the store after the request
differs from the store before it. -/
theorem c2_legacy_handler_mutates_store :
    legacyHandler [prodZeta, prodAlpha] QuerySpec.empty =
      .ok ([prodAlpha, prodZeta], [prodAlpha, prodZeta]) ∧
    [prodAlpha, prodZeta] ≠ [prodZeta, prodAlpha] := by
  constructor
  · simp [legacyHandler, QuerySpec.empty, legacySearchFilter, availabilityFilter,
      categoryFilter, jsOrDefault, strTruthy, engineSort, List.mergeSort,
      List.splitInTwo, List.merge, sortLe, productCompare, localeCompare, charsLt,
      prodZeta, prodAlpha]
  · decide

/-- C3.  With every record carrying a `description`, the search filter with
a non-empty term keeps exactly the products matched by `searchSpecMatch`
(lowercased-substring match on name, description, or a tag), in input
order; and since the term itself is lowercased first, the terms `WIDGET`
and `widget` produce identical filters over any input. -/
theorem c3_search_filter_semantics (ps : List Product) (s : String) (hs : s ≠ "")
    (hdesc : ∀ p ∈ ps, p.description.isSome) :
    searchFilter (some s) ps = .ok (ps.filter (searchSpecMatch (jsToLower s))) ∧
    searchFilter (some "WIDGET") ps = searchFilter (some "widget") ps := by
  constructor
  · simp only [searchFilter, if_neg hs]
    exact filterExcept_ok (fun x hx => searchTest_ok (hdesc x hx) _)
  · have h : jsToLower "WIDGET" = jsToLower "widget" := by decide
    simp only [searchFilter,
      if_neg (by decide : ¬("WIDGET" : String) = ""),
      if_neg (by decide : ¬("widget" : String) = ""), h]

/-- C3, witness at a concrete two-record collection and the term `wid`. -/
theorem c3_search_filter_witness :
    searchFilter (some "wid") [prodZeta, prodAlpha] =
      .ok ([prodZeta, prodAlpha].filter (searchSpecMatch (jsToLower "wid"))) ∧
    searchFilter (some "WIDGET") [prodZeta, prodAlpha] =
      searchFilter (some "widget") [prodZeta, prodAlpha] :=
  c3_search_filter_semantics [prodZeta, prodAlpha] "wid" (by decide) (by decide)

/-- C4.  The engine sorts by the requested key: `price-low` ascending by
price, `price-high` descending by price, `rating` descending by rating,
`newest` descending by the parsed `createdAt` timestamp; every other value
of the sort parameter — `name` included — sorts ascending by the
locale-aware name comparison, and the empty query specification returns all
products so sorted. -/
theorem c4_sort_key_semantics (ps : List Product) :
    (∃ r, queryEngine ps ⟨none, some "price-low", none, none⟩ = .ok r ∧
      r.Perm ps ∧ r.Pairwise (fun a b => a.price ≤ b.price)) ∧
    (∃ r, queryEngine ps ⟨none, some "price-high", none, none⟩ = .ok r ∧
      r.Perm ps ∧ r.Pairwise (fun a b => b.price ≤ a.price)) ∧
    (∃ r, queryEngine ps ⟨none, some "rating", none, none⟩ = .ok r ∧
      r.Perm ps ∧ r.Pairwise (fun a b => b.rating ≤ a.rating)) ∧
    (∃ r, queryEngine ps ⟨none, some "newest", none, none⟩ = .ok r ∧
      r.Perm ps ∧ r.Pairwise (fun a b => b.createdAt ≤ a.createdAt)) ∧
    (∀ s : String, s ≠ "price-low" → s ≠ "price-high" → s ≠ "rating" → s ≠ "newest" →
      ∃ r, queryEngine ps ⟨none, some s, none, none⟩ = .ok r ∧
        r.Perm ps ∧ r.Pairwise (fun a b => localeCompare a.name b.name ≤ 0)) ∧
    (∃ r, queryEngine ps QuerySpec.empty = .ok r ∧
      r.Perm ps ∧ r.Pairwise (fun a b => localeCompare a.name b.name ≤ 0)) := by
  refine ⟨⟨engineSort "price-low" ps, rfl, engineSort_perm _ _, ?_⟩,
    ⟨engineSort "price-high" ps, rfl, engineSort_perm _ _, ?_⟩,
    ⟨engineSort "rating" ps, rfl, engineSort_perm _ _, ?_⟩,
    ⟨engineSort "newest" ps, rfl, engineSort_perm _ _, ?_⟩, ?_,
    ⟨engineSort "name" ps, rfl, engineSort_perm _ _, ?_⟩⟩
  · exact (engineSort_pairwise _ ps).imp (fun h => by simpa [keyRel] using h)
  · exact (engineSort_pairwise _ ps).imp (fun h => by simpa [keyRel] using h)
  · exact (engineSort_pairwise _ ps).imp (fun h => by simpa [keyRel] using h)
  · exact (engineSort_pairwise _ ps).imp (fun h => by simpa [keyRel] using h)
  · intro s h₁ h₂ h₃ h₄
    refine ⟨engineSort (jsOrDefault (some s) "name") ps,
      queryEngine_sort_only ps (some s), engineSort_perm _ _, ?_⟩
    refine (engineSort_pairwise _ ps).imp (fun {a b} h => ?_)
    simp only [jsOrDefault] at h
    split_ifs at h
    · simpa [keyRel] using h
    · simpa [keyRel, h₁, h₂, h₃, h₄] using h
  · exact (engineSort_pairwise _ ps).imp (fun h => by simpa [keyRel] using h)

/-- C5.  The sort stage is stable for every sort key: two products that
compare equal under the selected comparator and stand in a given relative
order in the post-filter, pre-sort sequence keep that relative order in the
output. -/
theorem c5_sort_stable (k : String) (l : List Product) (a b : Product)
    (hsub : List.Sublist [a, b] l) (heq : productCompare k a b = 0) :
    List.Sublist [a, b] (engineSort k l) :=
  List.pair_sublist_mergeSort (sortLe_trans k) (sortLe_total k)
    (by simp [sortLe, heq]) hsub

/-- C5, witness: two records with equal ratings keep their order under the
`rating` sort. -/
theorem c5_sort_stable_witness :
    List.Sublist [prodZeta, prodBeta] (engineSort "rating" [prodZeta, prodBeta]) :=
  c5_sort_stable "rating" [prodZeta, prodBeta] prodZeta prodBeta
    (List.Sublist.refl _) (by decide)

/-- C6.  The availability filter keeps exactly the in-stock products for
`in-stock`, exactly the discounted products for `on-sale`, and every
product for `all`, for an absent parameter, and for any other value, never
raising an error; the result is the kept products up to the ordering the
sort stage then applies. -/
theorem c6_availability_semantics (ps : List Product) :
    (∃ r, queryEngine ps ⟨none, none, some "in-stock", none⟩ = .ok r ∧
      r.Perm (ps.filter (fun p => p.inStock))) ∧
    (∃ r, queryEngine ps ⟨none, none, some "on-sale", none⟩ = .ok r ∧
      r.Perm (ps.filter (fun p => decide (p.price < p.originalPrice)))) ∧
    (∀ v : String, v ≠ "in-stock" → v ≠ "on-sale" →
      ∃ r, queryEngine ps ⟨none, none, some v, none⟩ = .ok r ∧ r.Perm ps) ∧
    (∃ r, queryEngine ps ⟨none, none, none, none⟩ = .ok r ∧ r.Perm ps) := by
  refine ⟨⟨_, rfl, engineSort_perm _ _⟩, ⟨_, rfl, engineSort_perm _ _⟩, ?_,
    ⟨_, rfl, engineSort_perm _ _⟩⟩
  intro v hv₁ hv₂
  have hav : availabilityFilter (jsOrDefault (some v) "all") ps = ps := by
    simp only [jsOrDefault]
    split_ifs
    · rfl
    · unfold availabilityFilter
      rw [if_neg hv₁, if_neg hv₂]
  have hq : queryEngine ps ⟨none, none, some v, none⟩ =
      .ok (engineSort "name" (availabilityFilter (jsOrDefault (some v) "all") ps)) := rfl
  rw [hq, hav]
  exact ⟨_, rfl, engineSort_perm _ _⟩

/-- C7, counterexample.  An empty-string `category` parameter is present
and differs from the sentinel `all`, yet the handler skips the category
filter (the JS truthiness test rejects the empty string): a product whose
`categoryId` is not the empty string is still returned. -/
theorem c7_empty_category_skips_filter :
    queryEngine [prodZeta] ⟨some "", none, none, none⟩ = .ok [prodZeta] ∧
    prodZeta.categoryId ≠ "" ∧ ("" : String) ≠ "all" := by
  refine ⟨?_, by decide, by decide⟩
  simp [queryEngine, searchFilter, availabilityFilter, categoryFilter, jsOrDefault,
    engineSort]

/-- C7, amended.  When the `category` parameter is present, non-empty and
not `all`, the result keeps exactly the products whose `categoryId` equals
it (exact string match); when the parameter is absent, empty, or `all`, no
category filtering occurs. -/
theorem c7_category_semantics (ps : List Product) (c : String) :
    (c ≠ "" → c ≠ "all" →
      ∃ r, queryEngine ps ⟨some c, none, none, none⟩ = .ok r ∧
        r.Perm (ps.filter (fun p => p.categoryId == c))) ∧
    (∃ r, queryEngine ps ⟨some "all", none, none, none⟩ = .ok r ∧ r.Perm ps) ∧
    (∃ r, queryEngine ps ⟨some "", none, none, none⟩ = .ok r ∧ r.Perm ps) ∧
    (∃ r, queryEngine ps ⟨none, none, none, none⟩ = .ok r ∧ r.Perm ps) := by
  refine ⟨?_, ?_, ?_, ⟨_, rfl, engineSort_perm _ _⟩⟩
  · intro hc₁ hc₂
    have hcat : categoryFilter (some c) ps = ps.filter (fun p => p.categoryId == c) := by
      simp only [categoryFilter, if_pos (And.intro hc₁ hc₂)]
    have hq : queryEngine ps ⟨some c, none, none, none⟩ =
        .ok (engineSort "name" (categoryFilter (some c) ps)) := rfl
    rw [hq, hcat]
    exact ⟨_, rfl, engineSort_perm _ _⟩
  · have hcat : categoryFilter (some "all") ps = ps := by simp [categoryFilter]
    have hq : queryEngine ps ⟨some "all", none, none, none⟩ =
        .ok (engineSort "name" (categoryFilter (some "all") ps)) := rfl
    rw [hq, hcat]
    exact ⟨_, rfl, engineSort_perm _ _⟩
  · have hcat : categoryFilter (some "") ps = ps := by simp [categoryFilter]
    have hq : queryEngine ps ⟨some "", none, none, none⟩ =
        .ok (engineSort "name" (categoryFilter (some "") ps)) := rfl
    rw [hq, hcat]
    exact ⟨_, rfl, engineSort_perm _ _⟩

/-- C7, witness for the amended theorem: the filtering branch instantiated
at the category `a` over a two-category collection. -/
theorem c7_category_witness :
    ∃ r, queryEngine [prodZeta, prodGhost] ⟨some "a", none, none, none⟩ = .ok r ∧
      r.Perm ([prodZeta, prodGhost].filter (fun p => p.categoryId == "a")) :=
  (c7_category_semantics [prodZeta, prodGhost] "a").1 (by decide) (by decide)

/-- C8.  Whenever the engine answers a request, the result is at most as
long as the input collection and every returned product occurs, by `id`, in
the input; a successful answer is always an actual sequence (the `.ok`
constructor), possibly empty. -/
theorem c8_result_bounds (ps r : List Product) (q : QuerySpec)
    (h : queryEngine ps q = .ok r) :
    r.length ≤ ps.length ∧ ∀ p ∈ r, ∃ p₀ ∈ ps, p₀.id = p.id := by
  unfold queryEngine at h
  rcases hsf : searchFilter q.search
      (availabilityFilter (jsOrDefault q.filter "all") (categoryFilter q.category ps))
    with e | l₃ <;> rw [hsf] at h
  · cases h
  · cases h
    have hsub : List.Sublist l₃ ps :=
      (searchFilter_sublist hsf).trans
        ((availabilityFilter_sublist _ _).trans (categoryFilter_sublist _ _))
    constructor
    · calc (engineSort (jsOrDefault q.sort "name") l₃).length
          = l₃.length := (engineSort_perm _ _).length_eq
        _ ≤ ps.length := hsub.length_le
    · intro p hp
      exact ⟨p, hsub.subset (((engineSort_perm _ _).mem_iff).mp hp), rfl⟩

/-- C8, witness at a concrete two-record collection and the empty query
specification. -/
theorem c8_result_bounds_witness :
    ([prodAlpha, prodZeta] : List Product).length ≤
      ([prodZeta, prodAlpha] : List Product).length ∧
    ∀ p ∈ [prodAlpha, prodZeta], ∃ p₀ ∈ [prodZeta, prodAlpha], p₀.id = p.id :=
  c8_result_bounds [prodZeta, prodAlpha] [prodAlpha, prodZeta] QuerySpec.empty (by
    simp [queryEngine, QuerySpec.empty, searchFilter, availabilityFilter,
      categoryFilter, jsOrDefault, engineSort, List.mergeSort, List.splitInTwo,
      List.merge, sortLe, productCompare, localeCompare, charsLt, prodZeta, prodAlpha])

/-- C9, counterexample.  When the startup load of `db.json` fails, the
`catch` branch installs empty collections, so the products endpoint does
not answer a server-side error: it invokes the engine on the empty
collection and answers 200 with an empty array. -/
theorem c9_loader_failure_answers_ok :
    handleProducts (loadDb (.error "ENOENT: no such file db.json")) QuerySpec.empty =
      .okJson [] := by
  simp [handleProducts, loadDb, fallbackDb, queryEngine_nil]

/-- C9, amended.  On loader failure the server falls back to empty
collections and the products endpoint answers every request with 200 and an
empty array; the 500 `'Database not loaded'` answer — without invoking the
engine — occurs exactly when the database object lacks its `products`
member. -/
theorem c9_loader_fallback_semantics (e : String) (q : QuerySpec) :
    handleProducts (loadDb (.error e)) q = .okJson [] ∧
    ∀ d : Db, d.products = none →
      handleProducts d q = .serverError "Database not loaded" := by
  constructor
  · simp [handleProducts, loadDb, fallbackDb, queryEngine_nil]
  · intro d hd
    simp [handleProducts, hd]

/-- C10.  An empty-string `category` parameter and an empty-string `search`
parameter are each skipped entirely by the JS truthiness tests, behaving
exactly as if the parameter were absent, for every collection and every
setting of the remaining parameters. -/
theorem c10_empty_params_skipped (ps : List Product)
    (c so f s : Option String) :
    queryEngine ps ⟨some "", so, f, s⟩ = queryEngine ps ⟨none, so, f, s⟩ ∧
    queryEngine ps ⟨c, so, f, some ""⟩ = queryEngine ps ⟨c, so, f, none⟩ := by
  constructor
  · have hcat : categoryFilter (some "") ps = categoryFilter none ps := by
      simp [categoryFilter]
    unfold queryEngine
    rw [hcat]
  · have hsearch : ∀ l, searchFilter (some "") l = searchFilter none l := by
      intro l; simp [searchFilter]
    unfold queryEngine
    rw [hsearch]

end FakeApi
